import Mathlib

/-!
Verification of the escrow rent/lease contract (`Ink-contract-Lib.rs`).

The contract stores a mapping from escrow identifiers to `Escrow` records and
exposes five operations: `create_escrow`, `rent`, `pay_rent`, `lease_ended`
and `cancel_lease`.  Guard failures in the source are panics (ink reverts the
whole call), so each operation is embedded as a total function returning
`Except Error _`: on error nothing is written.  Account identifiers and hashes
are opaque and embedded as `Nat`; `Balance` is `u128` and timestamps are
`u64`, both embedded as `Nat` with an explicit modulus exactly where the
source performs machine addition (`escrow_balance += value` and
`lease_start_time + lease_duration`, both unchecked in the source).
The external transfer (`self.env().transfer(...)`) may fail; its outcome is an
explicit boolean input, and a failing transfer panics (`.expect`), i.e. the
operation errors and the record is not removed.
-/

abbrev AccountId := Nat

abbrev Hash := Nat

abbrev Balance := Nat

/-- Modulus of the `u128` type of `Balance`. -/
def U128_MOD : Nat := 2 ^ 128

/-- Modulus of the `u64` type of timestamps and `lease_duration`. -/
def U64_MOD : Nat := 2 ^ 64

/-- The `Escrow` record, field for field as in the source. -/
structure Escrow where
  renter : AccountId
  landlord : AccountId
  rent_amount : Balance
  lease_duration : Nat
  lease_start_time : Nat
  escrow_balance : Balance
  is_leased : Bool
deriving DecidableEq, Repr

/-- Error taxonomy: one constructor per panic site of the source
(`expect` in `get_escrow_or_revert`, the five `ensure_*` asserts, and the
`expect` on the external transfer). -/
inductive Error where
  | NotFound
  | InvalidState
  | Unauthorized
  | InsufficientPayment
  | LeaseNotExpired
  | Overflow
  | TransferFailed
deriving DecidableEq, Repr

/-- The `escrows: HashMap<Hash, Escrow>` storage, embedded as an association
list with at most one live binding per key (insert replaces). -/
abbrev Store := List (Hash × Escrow)

/-- `HashMap::get`: the binding of `id`, if any. -/
def Store.get (s : Store) (id : Hash) : Option Escrow :=
  (s.find? (fun p => p.1 == id)).map (fun p => p.2)

/-- `HashMap::remove`: delete the binding of `id`. -/
def Store.remove (s : Store) (id : Hash) : Store :=
  s.filter (fun p => p.1 != id)

/-- `HashMap::insert`: bind `id` to `e`, replacing any previous binding. -/
def Store.insert (s : Store) (id : Hash) (e : Escrow) : Store :=
  (id, e) :: Store.remove s id

/-- `create_escrow`: unconditionally insert a fresh record with the caller as
renter, `lease_start_time = 0`, `escrow_balance = 0`, `is_leased = false`. -/
def create_escrow (s : Store) (caller : AccountId) (escrow_id : Hash)
    (landlord : AccountId) (rent_amount : Balance) (lease_duration : Nat) :
    Store :=
  Store.insert s escrow_id
    { renter := caller
      landlord := landlord
      rent_amount := rent_amount
      lease_duration := lease_duration
      lease_start_time := 0
      escrow_balance := 0
      is_leased := false }

/-- `rent`: guards `get_escrow_or_revert`, `ensure_escrow_not_leased`,
`ensure_caller_is_renter`; then sets `lease_start_time` to the current block
timestamp `now` and `is_leased` to `true`. -/
def rent (s : Store) (caller : AccountId) (now : Nat) (escrow_id : Hash) :
    Except Error Store :=
  match Store.get s escrow_id with
  | none => .error .NotFound
  | some escrow =>
    if escrow.is_leased then .error .InvalidState
    else if caller ≠ escrow.renter then .error .Unauthorized
    else .ok (Store.insert s escrow_id
      { escrow with lease_start_time := now, is_leased := true })

/-- `pay_rent`: guards `get_escrow_or_revert`, `ensure_escrow_leased`,
`ensure_caller_is_renter`, `ensure_rent_amount_paid`; then
`escrow_balance += value`, an unchecked `u128` addition, hence the explicit
wrap modulo `U128_MOD`. -/
def pay_rent (s : Store) (caller : AccountId) (value : Balance)
    (escrow_id : Hash) : Except Error Store :=
  match Store.get s escrow_id with
  | none => .error .NotFound
  | some escrow =>
    if ¬ escrow.is_leased then .error .InvalidState
    else if caller ≠ escrow.renter then .error .Unauthorized
    else if value < escrow.rent_amount then .error .InsufficientPayment
    else .ok (Store.insert s escrow_id
      { escrow with
          escrow_balance := (escrow.escrow_balance + value) % U128_MOD })

/-- `lease_ended`: guards `get_escrow_or_revert`, `ensure_escrow_leased`,
`ensure_caller_is_landlord`, `ensure_lease_duration_passed` (the source
computes `lease_start_time + lease_duration` with unchecked `u64` addition,
hence the wrap modulo `U64_MOD`, and compares with `<=`); then transfers
`escrow_balance` to the caller (panicking, i.e. erroring, if the external
transfer fails) and removes the record. -/
def lease_ended (s : Store) (caller : AccountId) (now : Nat)
    (transfer_ok : Bool) (escrow_id : Hash) :
    Except Error (Store × List (AccountId × Balance)) :=
  match Store.get s escrow_id with
  | none => .error .NotFound
  | some escrow =>
    if ¬ escrow.is_leased then .error .InvalidState
    else if caller ≠ escrow.landlord then .error .Unauthorized
    else if ¬ ((escrow.lease_start_time + escrow.lease_duration) % U64_MOD
        ≤ now) then .error .LeaseNotExpired
    else if ¬ transfer_ok then .error .TransferFailed
    else .ok (Store.remove s escrow_id, [(caller, escrow.escrow_balance)])

/-- `cancel_lease`: guards `get_escrow_or_revert`, `ensure_escrow_not_leased`,
`ensure_caller_is_landlord`; then transfers `escrow_balance` to the caller
(erroring if the external transfer fails) and removes the record. -/
def cancel_lease (s : Store) (caller : AccountId) (transfer_ok : Bool)
    (escrow_id : Hash) : Except Error (Store × List (AccountId × Balance)) :=
  match Store.get s escrow_id with
  | none => .error .NotFound
  | some escrow =>
    if escrow.is_leased then .error .InvalidState
    else if caller ≠ escrow.landlord then .error .Unauthorized
    else if ¬ transfer_ok then .error .TransferFailed
    else .ok (Store.remove s escrow_id, [(caller, escrow.escrow_balance)])

/-- One invocation of one of the five public operations, with the ambient
inputs (caller, block timestamp, transferred value, outcome of the external
transfer) made explicit. -/
inductive Op where
  | createE (caller : AccountId) (id : Hash) (landlord : AccountId)
      (rent_amount : Balance) (lease_duration : Nat)
  | rentE (caller : AccountId) (now : Nat) (id : Hash)
  | payRentE (caller : AccountId) (value : Balance) (id : Hash)
  | leaseEndedE (caller : AccountId) (now : Nat) (transfer_ok : Bool)
      (id : Hash)
  | cancelLeaseE (caller : AccountId) (transfer_ok : Bool) (id : Hash)
deriving DecidableEq, Repr

/-- Result of one invocation: the new store and the list of transfers issued
(`create_escrow`, `rent`, `pay_rent` issue none). -/
def stepRes (s : Store) : Op → Except Error (Store × List (AccountId × Balance))
  | .createE c id l ra ld => .ok (create_escrow s c id l ra ld, [])
  | .rentE c now id => (rent s c now id).map (fun s2 => (s2, []))
  | .payRentE c v id => (pay_rent s c v id).map (fun s2 => (s2, []))
  | .leaseEndedE c now ok id => lease_ended s c now ok id
  | .cancelLeaseE c ok id => cancel_lease s c ok id

/-- Store after one invocation: a panic (error) reverts, leaving the store as
it was. -/
def step (s : Store) (op : Op) : Store :=
  match stepRes s op with
  | .ok (s2, _) => s2
  | .error _ => s

/-- Store reached from the empty store (the constructor `new`) by a sequence
of invocations. -/
def run (ops : List Op) : Store := List.foldl step [] ops

/-! ### Concrete records, stores and operation lists used in the theorems below -/

def demoLeased : Escrow :=
  { renter := 1, landlord := 2, rent_amount := 100, lease_duration := 3,
    lease_start_time := 4, escrow_balance := 150, is_leased := true }

def unleasedDemo : Escrow :=
  { renter := 1, landlord := 2, rent_amount := 100, lease_duration := 10,
    lease_start_time := 0, escrow_balance := 0, is_leased := false }

def wrapEscrow : Escrow :=
  { renter := 1, landlord := 2, rent_amount := 100, lease_duration := 2,
    lease_start_time := U64_MOD - 1, escrow_balance := 150, is_leased := true }

def wrapEscrow2 : Escrow :=
  { renter := 1, landlord := 4, rent_amount := 50, lease_duration := 7,
    lease_start_time := U64_MOD - 5, escrow_balance := 90, is_leased := true }

def maxedEscrow : Escrow :=
  { renter := 1, landlord := 2, rent_amount := 1, lease_duration := 10,
    lease_start_time := 5, escrow_balance := U128_MOD - 1, is_leased := true }

/-- Iterated `pay_rent` with one transferred value per call, stopping at the
first failure (each on-chain call is separate, so a failed call leaves the
store of the previous successful call). -/
def pay_rent_seq (s : Store) (caller : AccountId) (escrow_id : Hash) :
    List Balance → Except Error Store
  | [] => .ok s
  | v :: vs =>
    match pay_rent s caller v escrow_id with
    | .ok s2 => pay_rent_seq s2 caller escrow_id vs
    | .error err => .error err

def nearMaxEscrow : Escrow :=
  { renter := 1, landlord := 2, rent_amount := 2, lease_duration := 10,
    lease_start_time := 5, escrow_balance := U128_MOD - 2, is_leased := true }

def c7Escrow : Escrow :=
  { renter := 1, landlord := 2, rent_amount := 100, lease_duration := 10,
    lease_start_time := 3, escrow_balance := 0, is_leased := true }

def c7Final : Escrow := { c7Escrow with escrow_balance := 250 }

/-- A per-record predicate holding of every record in the store. -/
def StoreInv (P : Escrow → Prop) (s : Store) : Prop := ∀ p ∈ s, P p.2

/-- Balance is zero while unleased. -/
def UnleasedZero (e : Escrow) : Prop :=
  e.is_leased = false → e.escrow_balance = 0

def c9ops : List Op := [Op.createE 1 5 2 100 10]

/-- Positive lease start time while leased. -/
def LeasedPosStart (e : Escrow) : Prop :=
  e.is_leased = true → 0 < e.lease_start_time

/-- The invocation's block timestamp is positive whenever it is a rent call. -/
def rentAtPositiveTime : Op → Prop
  | .rentE _ now _ => 0 < now
  | _ => True

def rentedAt0 : Escrow :=
  { renter := 1, landlord := 2, rent_amount := 100, lease_duration := 10,
    lease_start_time := 0, escrow_balance := 0, is_leased := true }

def c5ops : List Op := [Op.createE 1 5 2 100 10, Op.rentE 1 0 5]

def c5okOps : List Op := [Op.createE 1 5 2 100 10, Op.rentE 1 7 5]

/-! ### Theorems -/

example : Store.get (create_escrow [] 1 5 2 100 10) 5 =
    some { renter := 1, landlord := 2, rent_amount := 100,
           lease_duration := 10, lease_start_time := 0, escrow_balance := 0,
           is_leased := false } := by decide

example : rent (create_escrow [] 1 5 2 100 10) 1 7 5 =
    .ok [(5, { renter := 1, landlord := 2, rent_amount := 100,
               lease_duration := 10, lease_start_time := 7,
               escrow_balance := 0, is_leased := true })] := by rfl

example : pay_rent (run [Op.createE 1 5 2 100 10, Op.rentE 1 7 5]) 1 150 5 =
    .ok [(5, { renter := 1, landlord := 2, rent_amount := 100,
               lease_duration := 10, lease_start_time := 7,
               escrow_balance := 150, is_leased := true })] := by rfl

theorem store_get_remove_self (s : Store) (id : Hash) :
    Store.get (Store.remove s id) id = none := by
  unfold Store.get Store.remove
  rw [Option.map_eq_none', List.find?_eq_none]
  intro p hp
  have hne := List.of_mem_filter hp
  simp only [bne_iff_ne, ne_eq] at hne
  simp [hne]

theorem store_get_insert_self (s : Store) (id : Hash) (e : Escrow) :
    Store.get (Store.insert s id e) id = some e := by
  simp [Store.get, Store.insert, List.find?]

theorem store_get_mem {s : Store} {id : Hash} {e : Escrow}
    (h : Store.get s id = some e) : (id, e) ∈ s := by
  unfold Store.get at h
  rw [Option.map_eq_some'] at h
  obtain ⟨p, hfind, hpe⟩ := h
  have hmem := List.mem_of_find?_eq_some hfind
  have hpred := List.find?_some hfind
  have h1 : p.1 = id := by simpa using hpred
  have h2 : p = (id, e) := by
    cases p
    simp_all
  rwa [h2] at hmem

theorem store_mem_insert {s : Store} {id : Hash} {e : Escrow}
    {p : Hash × Escrow} (h : p ∈ Store.insert s id e) :
    p = (id, e) ∨ p ∈ s := by
  rcases List.mem_cons.mp h with h1 | h1
  · exact Or.inl h1
  · exact Or.inr (List.mem_of_mem_filter h1)

theorem store_mem_remove {s : Store} {id : Hash} {p : Hash × Escrow}
    (h : p ∈ Store.remove s id) : p ∈ s :=
  List.mem_of_mem_filter h

/-- C1: whenever `lease_ended` or `cancel_lease` succeeds, the escrow
identifier is afterwards absent from the store, exactly one transfer to the
caller is issued, and the transferred amount equals the `escrow_balance` the
record held immediately before the call. -/
theorem C1_terminal_cleanup (s : Store) (caller : AccountId) (now : Nat)
    (transfer_ok : Bool) (id : Hash) (e : Escrow) (s2 : Store)
    (ts : List (AccountId × Balance))
    (he : Store.get s id = some e)
    (h : lease_ended s caller now transfer_ok id = .ok (s2, ts) ∨
         cancel_lease s caller transfer_ok id = .ok (s2, ts)) :
    Store.get s2 id = none ∧ ts = [(caller, e.escrow_balance)] := by
  rcases h with h | h
  · unfold lease_ended at h
    rw [he] at h
    dsimp only at h
    split_ifs at h
    all_goals simp only [Except.ok.injEq, Prod.mk.injEq, reduceCtorEq] at h
    obtain ⟨hs2, hts⟩ := h
    rw [← hs2]
    exact ⟨store_get_remove_self s id, hts.symm⟩
  · unfold cancel_lease at h
    rw [he] at h
    dsimp only at h
    split_ifs at h
    all_goals simp only [Except.ok.injEq, Prod.mk.injEq, reduceCtorEq] at h
    obtain ⟨hs2, hts⟩ := h
    rw [← hs2]
    exact ⟨store_get_remove_self s id, hts.symm⟩

theorem C1_terminal_cleanup_witness :
    Store.get ([] : Store) 5 = none ∧
    [((2 : AccountId), (150 : Balance))] = [(2, demoLeased.escrow_balance)] :=
  C1_terminal_cleanup [(5, demoLeased)] 2 10 true 5 demoLeased []
    [(2, 150)] rfl (Or.inl rfl)

/-- C2: for every one of the five operations and every starting store, if the
operation fails for any reason (any guard failure or a failed external
transfer) the store is left exactly as it was before the call. -/
theorem C2_failure_is_sideeffect_free (s : Store) (op : Op) (err : Error)
    (h : stepRes s op = .error err) : step s op = s := by
  unfold step
  rw [h]

theorem C2_failure_is_sideeffect_free_witness :
    step [] (Op.rentE 1 0 5) = [] :=
  C2_failure_is_sideeffect_free [] (Op.rentE 1 0 5) Error.NotFound rfl

/-- C4: `rent` and `pay_rent` fail `Unauthorized` whenever the caller differs
from the record's renter, and `lease_ended` and `cancel_lease` fail
`Unauthorized` whenever the caller differs from the record's landlord, given
the operation's earlier guards (existence, leased/not-leased) pass. -/
theorem C4_authorization (s : Store) (id : Hash) (caller : AccountId)
    (now : Nat) (value : Balance) (transfer_ok : Bool) (e : Escrow)
    (he : Store.get s id = some e) :
    (e.is_leased = false → caller ≠ e.renter →
      rent s caller now id = .error .Unauthorized) ∧
    (e.is_leased = true → caller ≠ e.renter →
      pay_rent s caller value id = .error .Unauthorized) ∧
    (e.is_leased = true → caller ≠ e.landlord →
      lease_ended s caller now transfer_ok id = .error .Unauthorized) ∧
    (e.is_leased = false → caller ≠ e.landlord →
      cancel_lease s caller transfer_ok id = .error .Unauthorized) := by
  refine ⟨fun hl hc => ?_, fun hl hc => ?_, fun hl hc => ?_, fun hl hc => ?_⟩
  · simp [rent, he, hl, hc]
  · simp [pay_rent, he, hl, hc]
  · simp [lease_ended, he, hl, hc]
  · simp [cancel_lease, he, hl, hc]

theorem C4_authorization_witness :
    rent [(7, unleasedDemo)] 3 6 7 = .error .Unauthorized ∧
    pay_rent [(7, demoLeased)] 3 100 7 = .error .Unauthorized ∧
    lease_ended [(7, demoLeased)] 3 20 true 7 = .error .Unauthorized ∧
    cancel_lease [(7, unleasedDemo)] 3 true 7 = .error .Unauthorized :=
  ⟨(C4_authorization [(7, unleasedDemo)] 7 3 6 100 true unleasedDemo
      rfl).1 rfl (by decide),
   (C4_authorization [(7, demoLeased)] 7 3 20 100 true demoLeased
      rfl).2.1 rfl (by decide),
   (C4_authorization [(7, demoLeased)] 7 3 20 100 true demoLeased
      rfl).2.2.1 rfl (by decide),
   (C4_authorization [(7, unleasedDemo)] 7 3 6 100 true unleasedDemo
      rfl).2.2.2 rfl (by decide)⟩

/-- C8: guards are evaluated in the fixed order existence, then leased/
not-leased state, then caller identity, then numeric/time check: a missing
record yields `NotFound` whatever else is wrong; an existing record in the
wrong state yields `InvalidState` whatever the caller or value; a correct
state with a wrong caller yields `Unauthorized` whatever the value or time. -/
theorem C8_guard_order (s : Store) (id : Hash) (caller : AccountId)
    (now : Nat) (value : Balance) (transfer_ok : Bool) :
    (Store.get s id = none →
      rent s caller now id = .error .NotFound ∧
      pay_rent s caller value id = .error .NotFound ∧
      lease_ended s caller now transfer_ok id = .error .NotFound ∧
      cancel_lease s caller transfer_ok id = .error .NotFound) ∧
    (∀ e, Store.get s id = some e →
      (e.is_leased = true → rent s caller now id = .error .InvalidState) ∧
      (e.is_leased = false →
        pay_rent s caller value id = .error .InvalidState) ∧
      (e.is_leased = false →
        lease_ended s caller now transfer_ok id = .error .InvalidState) ∧
      (e.is_leased = true →
        cancel_lease s caller transfer_ok id = .error .InvalidState) ∧
      (e.is_leased = true → caller ≠ e.renter →
        pay_rent s caller value id = .error .Unauthorized) ∧
      (e.is_leased = true → caller ≠ e.landlord →
        lease_ended s caller now transfer_ok id = .error .Unauthorized)) := by
  constructor
  · intro h
    refine ⟨?_, ?_, ?_, ?_⟩
    · simp [rent, h]
    · simp [pay_rent, h]
    · simp [lease_ended, h]
    · simp [cancel_lease, h]
  · intro e he
    refine ⟨fun hl => ?_, fun hl => ?_, fun hl => ?_, fun hl => ?_,
        fun hl hc => ?_, fun hl hc => ?_⟩
    · simp [rent, he, hl]
    · simp [pay_rent, he, hl]
    · simp [lease_ended, he, hl]
    · simp [cancel_lease, he, hl]
    · simp [pay_rent, he, hl, hc]
    · simp [lease_ended, he, hl, hc]

theorem C8_guard_order_witness :
    pay_rent [] 3 0 7 = .error .NotFound ∧
    pay_rent [(7, unleasedDemo)] 3 0 7 = .error .InvalidState ∧
    lease_ended [(7, demoLeased)] 3 0 true 7 = .error .Unauthorized :=
  ⟨((C8_guard_order [] 7 3 0 0 true).1 rfl).2.1,
   ((C8_guard_order [(7, unleasedDemo)] 7 3 0 0 true).2 unleasedDemo
      rfl).2.1 rfl,
   ((C8_guard_order [(7, demoLeased)] 7 3 0 0 true).2 demoLeased
      rfl).2.2.2.2.2 rfl (by decide)⟩

/-- C6 (amended): for a leased escrow whose landlord is the caller, provided
`lease_start_time + lease_duration` does not overflow `u64` and the external
transfer succeeds, `lease_ended` fails `LeaseNotExpired` when
`now < lease_start_time + lease_duration` and succeeds when
`now ≥ lease_start_time + lease_duration` (in particular at exact expiry). -/
theorem C6_time_gate (s : Store) (id : Hash) (caller : AccountId) (now : Nat)
    (e : Escrow) (he : Store.get s id = some e) (hl : e.is_leased = true)
    (hc : caller = e.landlord)
    (hov : e.lease_start_time + e.lease_duration < U64_MOD) :
    (now < e.lease_start_time + e.lease_duration →
      lease_ended s caller now true id = .error .LeaseNotExpired) ∧
    (e.lease_start_time + e.lease_duration ≤ now →
      lease_ended s caller now true id =
        .ok (Store.remove s id, [(caller, e.escrow_balance)])) := by
  have hmod : (e.lease_start_time + e.lease_duration) % U64_MOD =
      e.lease_start_time + e.lease_duration := Nat.mod_eq_of_lt hov
  constructor
  · intro hlt
    have hng : ¬ ((e.lease_start_time + e.lease_duration) % U64_MOD ≤ now) := by
      rw [hmod]
      exact Nat.not_le.mpr hlt
    simp [lease_ended, he, hl, hc, hng]
  · intro hle
    have hg : (e.lease_start_time + e.lease_duration) % U64_MOD ≤ now := by
      rw [hmod]
      exact hle
    simp [lease_ended, he, hl, hc, hg]

theorem C6_time_gate_witness :
    lease_ended [(8, demoLeased)] 2 6 true 8 = .error .LeaseNotExpired ∧
    lease_ended [(8, demoLeased)] 2 7 true 8 =
      .ok (Store.remove [(8, demoLeased)] 8,
           [(2, demoLeased.escrow_balance)]) :=
  ⟨(C6_time_gate [(8, demoLeased)] 8 2 6 demoLeased rfl rfl rfl
      (by decide)).1 (by decide),
   (C6_time_gate [(8, demoLeased)] 8 2 7 demoLeased rfl rfl rfl
      (by decide)).2 (by decide)⟩

/-- C6 counterexample: for the leased record `wrapEscrow`, whose mathematical
expiry is `2 ^ 64 + 1`, `lease_ended` called by the landlord at time `1`
(strictly before the mathematical expiry) succeeds instead of failing
`LeaseNotExpired`, because the source adds start and duration in `u64`. -/
theorem C6_time_gate_counterexample :
    1 < wrapEscrow.lease_start_time + wrapEscrow.lease_duration ∧
    lease_ended [(6, wrapEscrow)] 2 1 true 6 = .ok ([], [(2, 150)]) := by
  constructor
  · decide
  · rfl

/-- C10: the time guard of `lease_ended` computes
`lease_start_time + lease_duration` with wrapping 64-bit addition: whenever
the mathematical sum is at least `2 ^ 64`, the guard compares the wrapped
value, which is strictly below the mathematical expiry, and `lease_ended`
already succeeds at that strictly earlier time. -/
theorem C10_wrapped_time_guard (s : Store) (id : Hash) (e : Escrow)
    (he : Store.get s id = some e) (hl : e.is_leased = true)
    (hov : U64_MOD ≤ e.lease_start_time + e.lease_duration) :
    (e.lease_start_time + e.lease_duration) % U64_MOD <
      e.lease_start_time + e.lease_duration ∧
    lease_ended s e.landlord
        ((e.lease_start_time + e.lease_duration) % U64_MOD) true id =
      .ok (Store.remove s id, [(e.landlord, e.escrow_balance)]) := by
  constructor
  · refine lt_of_lt_of_le (Nat.mod_lt _ ?_) hov
    norm_num [U64_MOD]
  · simp [lease_ended, he, hl]

theorem C10_wrapped_time_guard_witness :
    (wrapEscrow2.lease_start_time + wrapEscrow2.lease_duration) % U64_MOD <
      wrapEscrow2.lease_start_time + wrapEscrow2.lease_duration ∧
    lease_ended [(11, wrapEscrow2)] wrapEscrow2.landlord
        ((wrapEscrow2.lease_start_time + wrapEscrow2.lease_duration) %
          U64_MOD) true 11 =
      .ok (Store.remove [(11, wrapEscrow2)] 11,
           [(wrapEscrow2.landlord, wrapEscrow2.escrow_balance)]) :=
  C10_wrapped_time_guard [(11, wrapEscrow2)] 11 wrapEscrow2 rfl rfl (by decide)

/-- C3: the spec requires `pay_rent` to fail with an `Overflow` error and
leave `escrow_balance` unchanged whenever `escrow_balance + value` exceeds the
maximum representable balance, but `escrow_balance += value` in the source is
an unchecked `u128` addition: evaluated at the failing input (balance
`2 ^ 128 - 1`, `rent_amount` 1, value 1, so the mathematical sum is
`2 ^ 128`), the call succeeds and the balance wraps around to 0. -/
theorem C3_overflow_wraps :
    U128_MOD ≤ maxedEscrow.escrow_balance + 1 ∧
    pay_rent [(9, maxedEscrow)] 1 1 9 =
      .ok [(9, { maxedEscrow with escrow_balance := 0 })] :=
  ⟨by decide, rfl⟩

/-- C7 counterexample: from balance `2 ^ 128 - 2` a single successful
`pay_rent` of value 2 (equal to `rent_amount`, so the call succeeds) leaves
final balance 0, while the claimed value, initial balance plus the sum of the
values, is `2 ^ 128 ≠ 0`: the code wraps instead of failing with Overflow. -/
theorem C7_accumulation_counterexample :
    pay_rent_seq [(3, nearMaxEscrow)] 1 3 [2] =
      .ok [(3, { nearMaxEscrow with escrow_balance := 0 })] ∧
    nearMaxEscrow.escrow_balance + 2 ≠ 0 :=
  ⟨rfl, by decide⟩

/-- C7 (amended): for every sequence of successful `pay_rent` calls with
values `v1..vn` (each accepted in full, overpayment included, with no refund),
the final `escrow_balance` equals the initial balance plus the sum of the
values reduced modulo `2 ^ 128`; in particular it equals
`initial + v1 + ... + vn` exactly when that sum stays below `2 ^ 128` (the
source wraps on overflow instead of failing). -/
theorem C7_accumulation (s : Store) (caller : AccountId) (id : Hash)
    (vs : List Balance) (e : Escrow) (s2 : Store)
    (he : Store.get s id = some e) (hb : e.escrow_balance < U128_MOD)
    (h : pay_rent_seq s caller id vs = .ok s2) :
    (Store.get s2 id).map Escrow.escrow_balance =
      some ((e.escrow_balance + vs.sum) % U128_MOD) := by
  revert s e
  induction vs with
  | nil =>
    intro s e he hb h
    simp only [pay_rent_seq] at h
    obtain rfl : s = s2 := Except.ok.inj h
    rw [he]
    simp [Nat.mod_eq_of_lt hb]
  | cons v vs ih =>
    intro s e he hb h
    simp only [pay_rent_seq] at h
    cases hp : pay_rent s caller v id with
    | error err =>
      rw [hp] at h
      exact absurd h (by simp)
    | ok s3 =>
      rw [hp] at h
      have h2 : pay_rent_seq s3 caller id vs = .ok s2 := h
      unfold pay_rent at hp
      rw [he] at hp
      dsimp only at hp
      split_ifs at hp
      all_goals simp only [Except.ok.injEq, reduceCtorEq] at hp
      have h4 := ih (Store.insert s id
          { e with escrow_balance := (e.escrow_balance + v) % U128_MOD })
        { e with escrow_balance := (e.escrow_balance + v) % U128_MOD }
        (store_get_insert_self s id _)
        (Nat.mod_lt _ (by norm_num [U128_MOD])) (by rw [hp]; exact h2)
      rw [h4, List.sum_cons, Nat.mod_add_mod, add_assoc]

theorem C7_accumulation_witness :
    (Store.get [(5, c7Final)] 5).map Escrow.escrow_balance =
      some ((c7Escrow.escrow_balance + [150, 100].sum) % U128_MOD) :=
  C7_accumulation [(5, c7Escrow)] 1 5 [150, 100] c7Escrow [(5, c7Final)]
    rfl (by decide) rfl

theorem storeInv_insert {P : Escrow → Prop} {s : Store} {id : Hash}
    {e : Escrow} (hs : StoreInv P s) (he : P e) :
    StoreInv P (Store.insert s id e) := by
  intro p hp
  rcases store_mem_insert hp with rfl | hp2
  · exact he
  · exact hs p hp2

theorem storeInv_remove {P : Escrow → Prop} {s : Store} (id : Hash)
    (hs : StoreInv P s) : StoreInv P (Store.remove s id) := by
  intro p hp
  exact hs p (store_mem_remove hp)

/-- Every invocation either reverts, removes one record, inserts the fresh
record of `create_escrow`, activates an existing record (`rent`), or bumps the
balance of an existing leased record (`pay_rent`). -/
theorem step_result_cases (s : Store) (op : Op) :
    step s op = s ∨
    (∃ id, step s op = Store.remove s id) ∨
    (∃ c id l ra ld, op = Op.createE c id l ra ld ∧
      step s op = Store.insert s id
        { renter := c, landlord := l, rent_amount := ra,
          lease_duration := ld, lease_start_time := 0, escrow_balance := 0,
          is_leased := false }) ∨
    (∃ c now id e, op = Op.rentE c now id ∧ Store.get s id = some e ∧
      step s op = Store.insert s id
        { e with lease_start_time := now, is_leased := true }) ∨
    (∃ c v id e, op = Op.payRentE c v id ∧ Store.get s id = some e ∧
      e.is_leased = true ∧
      step s op = Store.insert s id
        { e with escrow_balance := (e.escrow_balance + v) % U128_MOD }) := by
  cases op with
  | createE c id l ra ld =>
    exact Or.inr (Or.inr (Or.inl ⟨c, id, l, ra, ld, rfl, rfl⟩))
  | rentE c now id =>
    cases hg : Store.get s id with
    | none =>
      refine Or.inl ?_
      simp [step, stepRes, rent, Except.map, hg]
    | some e =>
      by_cases h1 : e.is_leased
      · refine Or.inl ?_
        simp [step, stepRes, rent, Except.map, hg, h1]
      · by_cases h2 : c = e.renter
        · refine Or.inr (Or.inr (Or.inr (Or.inl ⟨c, now, id, e, rfl, hg, ?_⟩)))
          simp [step, stepRes, rent, Except.map, hg, h1, h2]
        · refine Or.inl ?_
          simp [step, stepRes, rent, Except.map, hg, h1, h2]
  | payRentE c v id =>
    cases hg : Store.get s id with
    | none =>
      refine Or.inl ?_
      simp [step, stepRes, pay_rent, Except.map, hg]
    | some e =>
      by_cases h1 : e.is_leased
      · by_cases h2 : c = e.renter
        · by_cases h3 : v < e.rent_amount
          · refine Or.inl ?_
            simp [step, stepRes, pay_rent, Except.map, hg, h1, h2, h3]
          · refine Or.inr (Or.inr (Or.inr (Or.inr
              ⟨c, v, id, e, rfl, hg, h1, ?_⟩)))
            simp [step, stepRes, pay_rent, Except.map, hg, h1, h2, h3]
        · refine Or.inl ?_
          simp [step, stepRes, pay_rent, Except.map, hg, h1, h2]
      · refine Or.inl ?_
        simp [step, stepRes, pay_rent, Except.map, hg, h1]
  | leaseEndedE c now tok id =>
    cases hg : Store.get s id with
    | none =>
      refine Or.inl ?_
      simp [step, stepRes, lease_ended, hg]
    | some e =>
      by_cases h1 : e.is_leased
      · by_cases h2 : c = e.landlord
        · by_cases h3 :
            (e.lease_start_time + e.lease_duration) % U64_MOD ≤ now
          · cases tok with
            | true =>
              refine Or.inr (Or.inl ⟨id, ?_⟩)
              simp [step, stepRes, lease_ended, hg, h1, h2, h3]
            | false =>
              refine Or.inl ?_
              simp [step, stepRes, lease_ended, hg, h1, h2, h3]
          · refine Or.inl ?_
            simp [step, stepRes, lease_ended, hg, h1, h2, h3]
        · refine Or.inl ?_
          simp [step, stepRes, lease_ended, hg, h1, h2]
      · refine Or.inl ?_
        simp [step, stepRes, lease_ended, hg, h1]
  | cancelLeaseE c tok id =>
    cases hg : Store.get s id with
    | none =>
      refine Or.inl ?_
      simp [step, stepRes, cancel_lease, hg]
    | some e =>
      by_cases h1 : e.is_leased
      · refine Or.inl ?_
        simp [step, stepRes, cancel_lease, hg, h1]
      · by_cases h2 : c = e.landlord
        · cases tok with
          | true =>
            refine Or.inr (Or.inl ⟨id, ?_⟩)
            simp [step, stepRes, cancel_lease, hg, h1, h2]
          | false =>
            refine Or.inl ?_
            simp [step, stepRes, cancel_lease, hg, h1, h2]
        · refine Or.inl ?_
          simp [step, stepRes, cancel_lease, hg, h1, h2]

theorem step_preserves_unleasedZero (s : Store) (op : Op)
    (hs : StoreInv UnleasedZero s) : StoreInv UnleasedZero (step s op) := by
  rcases step_result_cases s op with h | ⟨id, h⟩ | ⟨c, id, l, ra, ld, hop, h⟩ |
      ⟨c, now, id, e, hop, hg, h⟩ | ⟨c, v, id, e, hop, hg, hl, h⟩
  · rw [h]
    exact hs
  · rw [h]
    exact storeInv_remove id hs
  · rw [h]
    exact storeInv_insert hs (fun _ => rfl)
  · rw [h]
    refine storeInv_insert hs (fun hfalse => ?_)
    exact Bool.noConfusion hfalse
  · rw [h]
    refine storeInv_insert hs (fun hfalse => ?_)
    have hf : e.is_leased = false := hfalse
    rw [hl] at hf
    exact Bool.noConfusion hf

theorem run_unleasedZero (ops : List Op) : StoreInv UnleasedZero (run ops) := by
  have main : ∀ (l : List Op) (s : Store), StoreInv UnleasedZero s →
      StoreInv UnleasedZero (List.foldl step s l) := by
    intro l
    induction l with
    | nil =>
      intro s hs
      exact hs
    | cons op t ih =>
      intro s hs
      exact ih (step s op) (step_preserves_unleasedZero s op hs)
  exact main ops [] (fun p hp => absurd hp (List.not_mem_nil p))

/-- C9: in every store reachable from the empty store by any sequence of the
five operations, every record with `is_leased = false` has
`escrow_balance = 0`; consequently a successful `cancel_lease` from a
reachable store transfers exactly 0 to the landlord. -/
theorem C9_unleased_balance_zero (ops : List Op) :
    StoreInv UnleasedZero (run ops) ∧
    ∀ caller transfer_ok id s2 ts,
      cancel_lease (run ops) caller transfer_ok id = .ok (s2, ts) →
      ts = [(caller, 0)] := by
  have hinv := run_unleasedZero ops
  refine ⟨hinv, ?_⟩
  intro caller transfer_ok id s2 ts h
  unfold cancel_lease at h
  cases hg : Store.get (run ops) id with
  | none =>
    rw [hg] at h
    exact absurd h (by simp)
  | some e =>
    rw [hg] at h
    dsimp only at h
    split_ifs at h with h1 h2 h3
    all_goals simp only [Except.ok.injEq, Prod.mk.injEq, reduceCtorEq] at h
    obtain ⟨hs2, hts⟩ := h
    have hz : e.escrow_balance = 0 :=
      hinv (id, e) (store_get_mem hg) (by simpa using h1)
    rw [← hts, hz]

theorem C9_unleased_balance_zero_witness :
    StoreInv UnleasedZero (run c9ops) ∧
    [((2 : AccountId), (0 : Balance))] = [(2, 0)] :=
  ⟨(C9_unleased_balance_zero c9ops).1,
   (C9_unleased_balance_zero c9ops).2 2 true 5 (Store.remove (run c9ops) 5)
     [(2, 0)] rfl⟩

/-- C5 counterexample: calling `rent` at block timestamp 0 (the spec's own
`t=0` scenario) reaches a store whose record has `is_leased = true` and
`lease_start_time = 0`, refuting the claimed invariant. -/
theorem C5_leased_start_counterexample :
    ¬ StoreInv LeasedPosStart (run c5ops) := by
  intro hinv
  have hget : Store.get (run c5ops) 5 = some rentedAt0 := rfl
  exact absurd (hinv (5, rentedAt0) (store_get_mem hget) rfl) (by decide)

theorem step_preserves_leasedPosStart (s : Store) (op : Op)
    (hop : rentAtPositiveTime op) (hs : StoreInv LeasedPosStart s) :
    StoreInv LeasedPosStart (step s op) := by
  rcases step_result_cases s op with h | ⟨id, h⟩ | ⟨c, id, l, ra, ld, hop2, h⟩ |
      ⟨c, now, id, e, hop2, hg, h⟩ | ⟨c, v, id, e, hop2, hg, hl, h⟩
  · rw [h]
    exact hs
  · rw [h]
    exact storeInv_remove id hs
  · rw [h]
    refine storeInv_insert hs (fun hlsd => ?_)
    exact Bool.noConfusion hlsd
  · rw [h]
    refine storeInv_insert hs (fun _ => ?_)
    rw [hop2] at hop
    exact hop
  · rw [h]
    refine storeInv_insert hs (fun hl2 => ?_)
    have h3 : e.is_leased = true := hl2
    exact hs (id, e) (store_get_mem hg) h3

/-- C5 (amended): in every store reachable from the empty store by a sequence
of the five operations in which every `rent` call happens at a positive block
timestamp, every record with `is_leased = true` has `lease_start_time > 0`
(the unamended claim fails when `rent` runs at timestamp 0, which the source
stores verbatim). -/
theorem C5_leased_start (ops : List Op)
    (hpos : ∀ op ∈ ops, rentAtPositiveTime op) :
    StoreInv LeasedPosStart (run ops) := by
  have main : ∀ (l : List Op) (s : Store), (∀ op ∈ l, rentAtPositiveTime op) →
      StoreInv LeasedPosStart s →
      StoreInv LeasedPosStart (List.foldl step s l) := by
    intro l
    induction l with
    | nil =>
      intro s _ hs
      exact hs
    | cons op t ih =>
      intro s hl hs
      exact ih (step s op) (fun o ho => hl o (List.mem_cons_of_mem op ho))
        (step_preserves_leasedPosStart s op (hl op (List.mem_cons_self op t))
          hs)
  exact main ops [] hpos (fun p hp => absurd hp (List.not_mem_nil p))

theorem C5_leased_start_witness :
    StoreInv LeasedPosStart (run c5okOps) := by
  refine C5_leased_start c5okOps ?_
  intro op hop
  rcases List.mem_cons.mp hop with rfl | hop2
  · trivial
  · rcases List.mem_cons.mp hop2 with rfl | hop3
    · exact (by norm_num : (0 : Nat) < 7)
    · exact absurd hop3 (List.not_mem_nil op)
